import Mathlib

set_option maxRecDepth 10000

/-!
Verification development for the xpano CLI argument subsystem
(src/xpano/cli/args.cc, src/xpano/cli/args.h).

The C++ code is shallowly embedded: `std::optional` becomes `Option`,
`std::vector<std::filesystem::path>` becomes `List String`, spdlog calls
become an accumulated `List LogEntry`, and the filesystem accessed by
`ExpandDirectories` becomes an explicit `FileSystem` record.  A filesystem
error thrown by `std::filesystem::directory_iterator` is modelled with
`Except`: `Except.error` marks an exception propagating out of the function.

External collaborators that are not part of the repository are modelled by
parameters: the supported-extension predicate (`utils::path`), and the
numeric bound constants (`xpano/constants.h`) are fields of `Bounds`/`Ctx`.
-/

namespace Xpano

/-! ### Character and digit helpers -/

def isWsChar (c : Char) : Bool :=
  c = ' ' || c = '\t' || c = '\n' || c = '\x0b' || c = '\x0c' || c = '\r'

def isHexDigitChar (c : Char) : Bool :=
  c.isDigit || ('a' ≤ c && c ≤ 'f') || ('A' ≤ c && c ≤ 'F')

def decDigitVal (c : Char) : Nat := c.toNat - 48

def hexDigitVal (c : Char) : Nat :=
  if c.isDigit then c.toNat - 48
  else if 'a' ≤ c then c.toNat - 87
  else c.toNat - 55

/-- Value of a digit string in the given base (most significant first). -/
def digitsVal (base : Nat) (valFn : Char → Nat) (ds : List Char) : Nat :=
  ds.foldl (fun acc c => base * acc + valFn c) 0

/-! ### ParseInt — model of args.cc lines 41-48

`std::from_chars` for `int`: matches an optional minus sign followed by a
longest run of decimal digits; yields `errc()` only when at least one digit
was matched and the value fits in a 32-bit `int`.  The code accepts exactly
when additionally the matched pattern spans the whole string
(`result.ptr == str.data() + str.size()`). -/

def intMin : Int := -(2 ^ 31)
def intMax : Int := 2 ^ 31 - 1

/-- Split an optional leading minus sign from the character list. -/
def splitSign (cs : List Char) : Bool × List Char :=
  match cs with
  | '-' :: r => (true, r)
  | r => (false, r)

def ParseInt (s : String) : Option Int :=
  let sp := splitSign s.data
  let ds := sp.2.takeWhile (·.isDigit)
  let tail := sp.2.drop ds.length
  if ds = [] then none
  else
    let v : Int := (if sp.1 then -1 else 1) * (digitsVal 10 decDigitVal ds : Int)
    if v < intMin || v > intMax then none
    else if tail ≠ [] then none
    else some v

/-! ### ParseFloat — model of args.cc lines 50-60

`std::stof` follows `strtof`: skip leading whitespace, optional sign, then
the longest prefix that is a decimal literal (digits, optional fraction,
optional exponent), a hexadecimal literal, an infinity, or a NaN.  The code
accepts only when the consumed prefix spans the whole string and no
exception was thrown (`catch (...)` turns every error into no value).

The numeric value is modelled as an exact rational (IEEE rounding is not
modelled); out-of-float-range magnitudes, which make `std::stof` throw
`std::out_of_range`, are modelled by the exact thresholds 2^128 (overflow)
and 2^(-150) (underflow to zero). -/

inductive FloatVal where
  | finite (q : ℚ)
  | posInf
  | negInf
  | nan
  deriving DecidableEq

def isNanPayloadChar (c : Char) : Bool := c.isAlphanum || c = '_'

/-- Lower-cased prefix match used for `inf` / `infinity` / `nan`. -/
def matchesCI (pat : List Char) (cs : List Char) : Bool :=
  (cs.take pat.length).map Char.toLower == pat

/-- Consume an optional exponent part: marker characters `marks`, optional
sign, then at least one decimal digit; returns (consumed, signed exponent).
If no digit follows, nothing is consumed (strtof backtracks). -/
def consumeExponent (marks : List Char) (cs : List Char) : Nat × Int :=
  match cs with
  | m :: rest =>
    if marks.contains m then
      let (esign, rest2, slen) :=
        match rest with
        | '+' :: r => ((1 : Int), r, 1)
        | '-' :: r => ((-1 : Int), r, 1)
        | r => ((1 : Int), r, 0)
      let eds := rest2.takeWhile (·.isDigit)
      if eds = [] then (0, 0)
      else (1 + slen + eds.length, esign * (digitsVal 10 decDigitVal eds : Int))
    else (0, 0)
  | [] => (0, 0)

def qpow (b : ℚ) (e : Int) : ℚ :=
  match e with
  | .ofNat n => b ^ n
  | .negSucc n => (b ^ (n + 1))⁻¹

/-- Mantissa digits `ip`/`fp` in base `base`, scaled by `expBase ^ e`. -/
def mantissaVal (base : Nat) (valFn : Char → Nat) (ip fp : List Char)
    (expBase : ℚ) (e : Int) : ℚ :=
  ((digitsVal base valFn ip : ℚ) + (digitsVal base valFn fp : ℚ) / (base : ℚ) ^ fp.length)
    * qpow expBase e

/-- The longest strtof-form prefix of `cs`: returns the number of characters
consumed and the (exact) value, or `none` if no conversion could be
performed (`std::stof` then throws `std::invalid_argument`). -/
def strtofParse (cs : List Char) : Option (Nat × FloatVal) :=
  let ws := (cs.takeWhile isWsChar).length
  let rest0 := cs.drop ws
  let (sgn, slen, rest1) :=
    match rest0 with
    | '+' :: r => ((1 : ℚ), 1, r)
    | '-' :: r => ((-1 : ℚ), 1, r)
    | r => ((1 : ℚ), 0, r)
  if matchesCI "infinity".data rest1 then
    some (ws + slen + 8, if sgn < 0 then .negInf else .posInf)
  else if matchesCI "inf".data rest1 then
    some (ws + slen + 3, if sgn < 0 then .negInf else .posInf)
  else if matchesCI "nan".data rest1 then
    let afterNan := rest1.drop 3
    let payload :=
      match afterNan with
      | '(' :: r =>
        let body := r.takeWhile isNanPayloadChar
        if (r.drop body.length).take 1 = [')'] then body.length + 2 else 0
      | _ => 0
    some (ws + slen + 3 + payload, .nan)
  else
    let hex :=
      match rest1 with
      | '0' :: x :: r2 =>
        if x = 'x' || x = 'X' then
          let hip := r2.takeWhile isHexDigitChar
          let r3 := r2.drop hip.length
          let (hfp, fplen) :=
            match r3 with
            | '.' :: r4 => (r4.takeWhile isHexDigitChar, (r4.takeWhile isHexDigitChar).length + 1)
            | _ => ([], 0)
          if hip = [] && hfp = [] then none
          else
            let r5 := r3.drop fplen
            let (elen, e) := consumeExponent ['p', 'P'] r5
            some (ws + slen + 2 + hip.length + fplen + elen,
              sgn * mantissaVal 16 hexDigitVal hip hfp 2 e)
        else none
      | _ => none
    match hex with
    | some (n, q) => some (n, .finite q)
    | none =>
      let ip := rest1.takeWhile (·.isDigit)
      let r3 := rest1.drop ip.length
      let (fp, fplen) :=
        match r3 with
        | '.' :: r4 => (r4.takeWhile (·.isDigit), (r4.takeWhile (·.isDigit)).length + 1)
        | _ => ([], 0)
      if ip = [] && fp = [] then none
      else
        let r5 := r3.drop fplen
        let (elen, e) := consumeExponent ['e', 'E'] r5
        some (ws + slen + ip.length + fplen + elen,
          .finite (sgn * mantissaVal 10 decDigitVal ip fp 10 e))

def qabs (q : ℚ) : ℚ := if q < 0 then -q else q

/-- Magnitudes `std::stof` reports as out of range (see module comment). -/
def floatOutOfRange (q : ℚ) : Bool :=
  qabs q ≥ 2 ^ 128 || (q ≠ 0 && qabs q < qpow 2 (-150))

/-- Out-of-range check lifted to `FloatVal` (infinities and NaN parsed from
their literals are in range). -/
def floatValOutOfRange (v : FloatVal) : Bool :=
  match v with
  | .finite q => floatOutOfRange q
  | _ => false

def ParseFloat (s : String) : Option FloatVal :=
  match strtofParse s.data with
  | none => none
  | some (n, v) =>
    if floatValOutOfRange v then none
    else if n = s.data.length then some v else none

/-! ### Enum types and resolvers — args.cc lines 62-93,
xpano/algorithm/options.h and xpano/pipeline/options.h -/

inductive ProjectionType where
  | kPerspective | kCylindrical | kSpherical | kFisheye | kStereographic
  | kCompressedRectilinear | kPanini | kMercator | kTransverseMercator
  deriving DecidableEq

inductive WaveCorrectionType where
  | kOff | kAuto | kHorizontal | kVertical
  deriving DecidableEq

inductive MatchingType where
  | kAuto | kSinglePano | kNone
  deriving DecidableEq

def ParseProjectionType (str : String) : Option ProjectionType :=
  if str = "perspective" then some .kPerspective
  else if str = "cylindrical" then some .kCylindrical
  else if str = "spherical" then some .kSpherical
  else if str = "fisheye" then some .kFisheye
  else if str = "stereographic" then some .kStereographic
  else if str = "rectilinear" then some .kCompressedRectilinear
  else if str = "panini" then some .kPanini
  else if str = "mercator" then some .kMercator
  else if str = "transverse-mercator" then some .kTransverseMercator
  else none

def ParseWaveCorrectionType (str : String) : Option WaveCorrectionType :=
  if str = "off" then some .kOff
  else if str = "auto" then some .kAuto
  else if str = "horizontal" then some .kHorizontal
  else if str = "vertical" then some .kVertical
  else none

def ParseMatchingType (str : String) : Option MatchingType :=
  if str = "auto" then some .kAuto
  else if str = "single" then some .kSinglePano
  else if str = "none" then some .kNone
  else none

/-! ### The configuration record — args.h lines 15-38 -/

structure Args where
  run_gui : Bool := false
  print_help : Bool := false
  print_version : Bool := false
  input_paths : List String := []
  output_path : Option String := none
  projection : Option ProjectionType := none
  matching_type : Option MatchingType := none
  match_threshold : Option Int := none
  min_shift : Option FloatVal := none
  jpeg_quality : Option Int := none
  png_compression : Option Int := none
  copy_metadata : Option Bool := none
  wave_correction : Option WaveCorrectionType := none
  max_pano_mpx : Option Int := none
  deriving DecidableEq

def defaultArgs : Args := {}

/-! ### Logging model — spdlog calls become accumulated entries -/

inductive LogLevel where
  | info | warn | error
  deriving DecidableEq

structure LogEntry where
  level : LogLevel
  msg : String
  deriving DecidableEq

/-! ### Flag literals — args.cc lines 26-39 -/

def kGuiFlag : String := "--gui"
def kOutputFlag : String := "--output="
def kHelpFlag : String := "--help"
def kVersionFlag : String := "--version"
def kProjectionFlag : String := "--projection="
def kMatchingTypeFlag : String := "--matching-type="
def kMatchThresholdFlag : String := "--match-threshold="
def kMinShiftFlag : String := "--min-shift="
def kJpegQualityFlag : String := "--jpeg-quality="
def kPngCompressionFlag : String := "--png-compression="
def kCopyMetadataFlag : String := "--copy-metadata"
def kNoCopyMetadataFlag : String := "--no-copy-metadata"
def kWaveCorrectionFlag : String := "--wave-correction="
def kMaxPanoMpxFlag : String := "--max-pano-mpx="

/-- `arg == flag` (std::string equality). -/
def strEqB (a b : String) : Bool := a.data == b.data

/-- Prefix test on character lists (pattern first). -/
def listStarts (p s : List Char) : Bool :=
  match p with
  | [] => true
  | pc :: ps =>
    match s with
    | [] => false
    | c :: cs => pc == c && listStarts ps cs

/-- `arg.starts_with(flag)`. -/
def strStarts (s p : String) : Bool := listStarts p.data s.data

/-- `arg.substr(n)`: drop the first `n` characters. -/
def strDropChars (s : String) (n : Nat) : String := ⟨s.data.drop n⟩

/-- Warning written by the `--matching-type=` branch, args.cc line 112. -/
def matchingTypeWarn (substr : String) : LogEntry :=
  ⟨.warn, "Invalid --matching-type " ++ substr
    ++ ", using default (auto). Valid: auto, single, none"⟩

/-! ### Token dispatcher — args.cc lines 95-139 -/

def ParseArg (a : Args) (arg : String) : Args × List LogEntry :=
  if strEqB arg kGuiFlag then ({a with run_gui := true}, [])
  else if strEqB arg kHelpFlag then ({a with print_help := true}, [])
  else if strEqB arg kVersionFlag then ({a with print_version := true}, [])
  else if strStarts arg kOutputFlag then
    ({a with output_path := some (strDropChars arg kOutputFlag.length)}, [])
  else if strStarts arg kProjectionFlag then
    ({a with projection := ParseProjectionType (strDropChars arg kProjectionFlag.length)}, [])
  else if strStarts arg kMatchingTypeFlag then
    let substr := strDropChars arg kMatchingTypeFlag.length
    let mt := ParseMatchingType substr
    ({a with matching_type := mt},
      if mt.isNone then [matchingTypeWarn substr] else [])
  else if strStarts arg kMatchThresholdFlag then
    ({a with match_threshold := ParseInt (strDropChars arg kMatchThresholdFlag.length)}, [])
  else if strStarts arg kMinShiftFlag then
    ({a with min_shift := ParseFloat (strDropChars arg kMinShiftFlag.length)}, [])
  else if strStarts arg kJpegQualityFlag then
    ({a with jpeg_quality := ParseInt (strDropChars arg kJpegQualityFlag.length)}, [])
  else if strStarts arg kPngCompressionFlag then
    ({a with png_compression := ParseInt (strDropChars arg kPngCompressionFlag.length)}, [])
  else if strEqB arg kCopyMetadataFlag then ({a with copy_metadata := some true}, [])
  else if strEqB arg kNoCopyMetadataFlag then ({a with copy_metadata := some false}, [])
  else if strStarts arg kWaveCorrectionFlag then
    ({a with wave_correction := ParseWaveCorrectionType (strDropChars arg kWaveCorrectionFlag.length)}, [])
  else if strStarts arg kMaxPanoMpxFlag then
    ({a with max_pano_mpx := ParseInt (strDropChars arg kMaxPanoMpxFlag.length)}, [])
  else ({a with input_paths := a.input_paths ++ [arg]}, [])

/-- One fold step: thread the record and append the emitted log entries. -/
def parseStep (acc : Args × List LogEntry) (arg : String) : Args × List LogEntry :=
  let (a, l) := ParseArg acc.1 arg
  (a, acc.2 ++ l)

/-- `ParseArgsRaw` — args.cc lines 141-149 (tokens exclude the program name). -/
def ParseArgsRaw (tokens : List String) : Args × List LogEntry :=
  tokens.foldl parseStep (defaultArgs, [])

/-! ### Path utilities

Modelled from the spec: the supported-extension allow-list and the
path-utility collaborator (`utils::path::IsExtensionSupported` /
`utils::path::KeepSupported`) are outside this repository slice; the spec
describes them as "is extension supported" and "filter sequence to
supported extensions".  They are modelled by an abstract predicate
`isSupported : String → Bool` over whole paths, carried in `Ctx`. -/

/-- Index of the last `'.'` in a character list, if any. -/
def lastDotIdx : List Char → Option Nat
  | [] => none
  | c :: cs =>
    match lastDotIdx cs with
    | some i => some (i + 1)
    | none => if c = '.' then some 0 else none

/-- Split a character list on `'/'` separators (accumulator holds the
current component reversed). -/
def splitSlashAux : List Char → List Char → List (List Char)
  | [], acc => [acc.reverse]
  | c :: cs, acc =>
    if c = '/' then acc.reverse :: splitSlashAux cs []
    else splitSlashAux cs (c :: acc)

/-- The component list of a path string. -/
def pathComponents (p : String) : List (List Char) := splitSlashAux p.data []

/-- `std::filesystem::path::extension` on the model: the suffix of the last
path component starting at its last dot, except for dot-files, `.` and
`..`, which have no extension. -/
def extensionOf (p : String) : String :=
  let filename := (pathComponents p).getLastD []
  if filename == ['.'] || filename == ['.', '.'] then ""
  else
    match lastDotIdx filename with
    | none => ""
    | some 0 => ""
    | some i => ⟨filename.drop i⟩

/-- Modelled from the spec: `utils::path::KeepSupported` restricts a path
sequence to the entries accepted by the supported-extension predicate. -/
def KeepSupported (sup : String → Bool) (paths : List String) : List String :=
  paths.filter sup

/-! ### Filesystem model and ExpandDirectories — args.cc lines 214-230 -/

structure DirEntry where
  path : String
  isRegularFile : Bool
  deriving DecidableEq

/-- The filesystem visible to `ExpandDirectories`.  `dirEntries` returns the
immediate entries of a directory in enumeration order, or `Except.error`
when `std::filesystem::directory_iterator` throws. -/
structure FileSystem where
  isDirectory : String → Bool
  dirEntries : String → Except Unit (List DirEntry)

def expandLog (p : String) : LogEntry := ⟨.info, "Expanding directory: " ++ p⟩

/-- Directory expansion.  An `Except.error` outcome models the
`std::filesystem` exception propagating out of the loop. -/
def ExpandDirectories (fs : FileSystem) : List String → Except Unit (List String) × List LogEntry
  | [] => (.ok [], [])
  | p :: rest =>
    if fs.isDirectory p then
      match fs.dirEntries p with
      | .error e => (.error e, [expandLog p])
      | .ok entries =>
        let files := (entries.filter (·.isRegularFile)).map (·.path)
        let tailRes := ExpandDirectories fs rest
        match tailRes.1 with
        | .ok restRes => (.ok (files ++ restRes), expandLog p :: tailRes.2)
        | .error e => (.error e, expandLog p :: tailRes.2)
    else
      let tailRes := ExpandDirectories fs rest
      match tailRes.1 with
      | .ok restRes => (.ok (p :: restRes), tailRes.2)
      | .error e => (.error e, tailRes.2)

/-! ### Path ordering and sort — args.cc line 250

`std::sort` uses `std::filesystem::path::operator<`, which compares paths
component-wise (each component by its native string), not by the raw path
string. -/

/-- Strict lexicographic order on character lists by code point, the
`std::string` comparison underlying both orders. -/
def charsLt : List Char → List Char → Bool
  | [], [] => false
  | [], _ :: _ => true
  | _ :: _, [] => false
  | a :: as, b :: bs =>
    if a.toNat < b.toNat then true
    else if b.toNat < a.toNat then false
    else charsLt as bs

/-- Lexicographic comparison of path component lists. -/
def pathCompLe : List (List Char) → List (List Char) → Bool
  | [], _ => true
  | _ :: _, [] => false
  | a :: as, b :: bs =>
    if charsLt a b then true
    else if charsLt b a then false
    else pathCompLe as bs

/-- `path1 <= path2` under `std::filesystem::path` ordering. -/
def pathLe (a b : String) : Bool := pathCompLe (pathComponents a) (pathComponents b)

def insertPath (x : String) : List String → List String
  | [] => [x]
  | y :: ys => if pathLe x y then x :: y :: ys else y :: insertPath x ys

/-- The `std::sort` call modelled as insertion sort under `pathLe`. -/
def sortPaths : List String → List String
  | [] => []
  | x :: xs => insertPath x (sortPaths xs)

/-- Adjacent-pair sortedness under a Boolean relation. -/
def chainSorted (le : String → String → Bool) : List String → Bool
  | [] => true
  | [_] => true
  | x :: y :: rest => le x y && chainSorted le (y :: rest)

/-! ### Bounds and the validator — args.cc lines 151-210

Modelled from the spec: the numeric bound constants live in
`xpano/constants.h`, outside this repository slice; they are abstract
fields here.  The `--max-pano-mpx` bounds 1 and 5000 are literals in the
code itself. -/

structure Bounds where
  kMinMatchThreshold : Int
  kMaxMatchThreshold : Int
  kMinShiftInPano : ℚ
  kMaxShiftInPano : ℚ
  kMaxJpegQuality : Int
  kMaxPngCompression : Int

/-- `val < bound` where `val` is the stored float value (IEEE semantics:
NaN compares false). -/
def fvLtQ (v : FloatVal) (q : ℚ) : Bool :=
  match v with
  | .finite x => x < q
  | .negInf => true
  | .posInf => false
  | .nan => false

/-- `val > bound` with NaN comparing false. -/
def fvGtQ (v : FloatVal) (q : ℚ) : Bool :=
  match v with
  | .finite x => x > q
  | .posInf => true
  | .negInf => false
  | .nan => false

def ratStr (q : ℚ) : String := toString q.num ++ "/" ++ toString q.den

/-- Rule conditions, in source order (failure when true). -/
def vcond1 (a : Args) : Bool := a.output_path.isSome && a.input_paths.isEmpty
def vcond2 (sup : String → Bool) (a : Args) : Bool := a.output_path.any (fun o => !sup o)
def vcond3 (a : Args) : Bool := a.output_path.isSome && a.run_gui
def vcond4 (a : Args) : Bool := a.match_threshold.any (· == 0)
def vcond5 (b : Bounds) (a : Args) : Bool :=
  a.match_threshold.any (fun v => v < b.kMinMatchThreshold || v > b.kMaxMatchThreshold)
def vcond6 (b : Bounds) (a : Args) : Bool :=
  a.min_shift.any (fun v => fvLtQ v b.kMinShiftInPano || fvGtQ v b.kMaxShiftInPano)
def vcond7 (b : Bounds) (a : Args) : Bool :=
  a.jpeg_quality.any (fun v => v < 0 || v > b.kMaxJpegQuality)
def vcond8 (b : Bounds) (a : Args) : Bool :=
  a.png_compression.any (fun v => v < 0 || v > b.kMaxPngCompression)
def vcond9 (a : Args) : Bool := a.max_pano_mpx.any (fun v => v < 1 || v > 5000)

def vdiag1 : LogEntry := ⟨.error, "No supported images provided"⟩
def vdiag2 (a : Args) : LogEntry :=
  ⟨.error, "Unsupported output file extension: " ++ extensionOf (a.output_path.getD "")⟩
def vdiag3 : LogEntry :=
  ⟨.error, "Specifying --gui and --output together is not yet supported."⟩
def vdiag4 : LogEntry := ⟨.error, "Invalid value for --match-threshold"⟩
def vdiag5 (b : Bounds) : LogEntry :=
  ⟨.error, "--match-threshold must be between " ++ toString b.kMinMatchThreshold
    ++ " and " ++ toString b.kMaxMatchThreshold⟩
def vdiag6 (b : Bounds) : LogEntry :=
  ⟨.error, "--min-shift must be between " ++ ratStr b.kMinShiftInPano
    ++ " and " ++ ratStr b.kMaxShiftInPano⟩
def vdiag7 (b : Bounds) : LogEntry :=
  ⟨.error, "--jpeg-quality must be between 0 and " ++ toString b.kMaxJpegQuality⟩
def vdiag8 (b : Bounds) : LogEntry :=
  ⟨.error, "--png-compression must be between 0 and " ++ toString b.kMaxPngCompression⟩
def vdiag9 : LogEntry := ⟨.error, "--max-pano-mpx must be between 1 and 5000"⟩

/-- `ValidateArgs` — args.cc lines 151-210: the if-chain, returning the
verdict and the diagnostics written on the way. -/
def ValidateArgs (sup : String → Bool) (b : Bounds) (a : Args) : Bool × List LogEntry :=
  if vcond1 a then (false, [vdiag1])
  else if vcond2 sup a then (false, [vdiag2 a])
  else if vcond3 a then (false, [vdiag3])
  else if vcond4 a then (false, [vdiag4])
  else if vcond5 b a then (false, [vdiag5 b])
  else if vcond6 b a then (false, [vdiag6 b])
  else if vcond7 b a then (false, [vdiag7 b])
  else if vcond8 b a then (false, [vdiag8 b])
  else if vcond9 a then (false, [vdiag9])
  else (true, [])

/-! ### ParseArgs — args.cc lines 232-257 -/

structure Ctx where
  fs : FileSystem
  isSupported : String → Bool
  bounds : Bounds

def noSupportedLog : LogEntry := ⟨.error, "No supported images provided!"⟩

/-- The pipeline stages after raw token parsing: expansion, filtering,
sorting, validation. -/
def PipelineAfterRaw (ctx : Ctx) (args : Args) (logs : List LogEntry) :
    Except Unit (Option Args) × List LogEntry :=
  let ex := ExpandDirectories ctx.fs args.input_paths
  match ex.1 with
  | .error e => (.error e, logs ++ ex.2)
  | .ok expanded =>
    let supported := KeepSupported ctx.isSupported expanded
    if supported = [] ∧ expanded ≠ [] then
      (.ok none, logs ++ ex.2 ++ [noSupportedLog])
    else
      let args2 := {args with input_paths := sortPaths supported}
      let vr := ValidateArgs ctx.isSupported ctx.bounds args2
      if vr.1 then (.ok (some args2), logs ++ ex.2 ++ vr.2)
      else (.ok none, logs ++ ex.2 ++ vr.2)

/-- `ParseArgs` — args.cc lines 232-257.  The try/catch wraps only
`ParseArgsRaw`, whose model cannot fail, so the catch branch (line 236) is
unreachable in the model; `ExpandDirectories` sits outside the guard and
its error therefore propagates as `Except.error`. -/
def ParseArgs (ctx : Ctx) (tokens : List String) :
    Except Unit (Option Args) × List LogEntry :=
  let (args, logs) := ParseArgsRaw tokens
  PipelineAfterRaw ctx args logs

instance {ε α : Type} [DecidableEq ε] [DecidableEq α] : DecidableEq (Except ε α) := fun a b =>
  match a, b with
  | .ok x, .ok y =>
    if h : x = y then .isTrue (congrArg Except.ok h)
    else .isFalse (fun hh => h (Except.ok.inj hh))
  | .error x, .error y =>
    if h : x = y then .isTrue (congrArg Except.error h)
    else .isFalse (fun hh => h (Except.error.inj hh))
  | .ok _, .error _ => .isFalse (fun hh => Except.noConfusion hh)
  | .error _, .ok _ => .isFalse (fun hh => Except.noConfusion hh)

/-! ### Spec-side definitions

These follow the wording of the specification (not the code) and exist only
to be compared with the source-derived definitions above. -/

/-- Spec wording (§4.2): "the entire string is consumed as a decimal
integer" — an optional minus sign followed by one or more decimal digits
covering the whole string. -/
def isFullDecInt (s : String) : Bool :=
  let sp := splitSign s.data
  !sp.2.isEmpty && sp.2.all (·.isDigit)

/-- The integer denoted by a full decimal-integer string. -/
def decStrVal (s : String) : Int :=
  let sp := splitSign s.data
  (if sp.1 then -1 else 1) * (digitsVal 10 decDigitVal sp.2 : Int)

/-- Spec wording (§3, §8): ascending order "by path string" — raw
`std::string` comparison by code point. -/
def strLeB (a b : String) : Bool := !(charsLt b.data a.data)

/-- The validator rule table of §4.6, in the listed order: condition
(failure when true) and the diagnostic it logs. -/
def validationRules (sup : String → Bool) (b : Bounds) (a : Args) :
    List (Bool × LogEntry) :=
  [(vcond1 a, vdiag1), (vcond2 sup a, vdiag2 a), (vcond3 a, vdiag3),
   (vcond4 a, vdiag4), (vcond5 b a, vdiag5 b), (vcond6 b a, vdiag6 b),
   (vcond7 b a, vdiag7 b), (vcond8 b a, vdiag8 b), (vcond9 a, vdiag9)]

/-- Spec wording (§4.4): one-level expansion — each directory entry is
replaced in place by its immediate regular-file children; everything else
passes through unchanged. -/
def oneLevelExpand (fs : FileSystem) (paths : List String) : List String :=
  (paths.map (fun p =>
    if fs.isDirectory p then
      match fs.dirEntries p with
      | .ok entries => (entries.filter (·.isRegularFile)).map (·.path)
      | .error _ => []
    else [p])).flatten

/-- Number of error-level entries in a log. -/
def errCount (l : List LogEntry) : Nat :=
  (l.filter (fun e => e.level == .error)).length

/-! ### Concrete fixtures used by witnesses and counterexamples -/

/-- A filesystem with no directories. -/
def fsFlat : FileSystem :=
  { isDirectory := fun _ => false, dirEntries := fun _ => .ok [] }

/-- Accept exactly `.jpg` and `.png`. -/
def supJpgPng (p : String) : Bool :=
  extensionOf p == ".jpg" || extensionOf p == ".png"

def boundsStd : Bounds :=
  { kMinMatchThreshold := 10, kMaxMatchThreshold := 1000,
    kMinShiftInPano := 0, kMaxShiftInPano := 1,
    kMaxJpegQuality := 100, kMaxPngCompression := 9 }

def ctxFlat : Ctx := { fs := fsFlat, isSupported := supJpgPng, bounds := boundsStd }

/-- A filesystem whose directory `photos` contains two regular files, a
non-image file and a subdirectory `photos/raw`. -/
def fsPhotos : FileSystem :=
  { isDirectory := fun p => p == "photos" || p == "photos/raw"
    dirEntries := fun p =>
      if p == "photos" then
        .ok [⟨"photos/b.png", true⟩, ⟨"photos/a.jpg", true⟩,
             ⟨"photos/notes.txt", true⟩, ⟨"photos/raw", false⟩]
      else .ok [] }

def ctxPhotos : Ctx := { fs := fsPhotos, isSupported := supJpgPng, bounds := boundsStd }

/-- A filesystem where enumerating directory `d` fails. -/
def fsErr : FileSystem :=
  { isDirectory := fun p => p == "d", dirEntries := fun _ => .error () }

def ctxErr : Ctx := { fs := fsErr, isSupported := supJpgPng, bounds := boundsStd }

def argsOutJpeg : Args :=
  {defaultArgs with input_paths := ["img.jpg"], output_path := some "out.jpg", jpeg_quality := some 90}

def argsTwoPhotos : Args :=
  {defaultArgs with input_paths := ["photos/a.jpg", "photos-x.jpg"]}

def argsDup : Args := {defaultArgs with input_paths := ["img1.jpg", "img1.jpg"]}

/-! ### Dispatch lemmas: how `ParseArg` treats each flag shape -/

theorem parseArg_gui (a : Args) : ParseArg a "--gui" = ({a with run_gui := true}, []) := rfl

theorem parseArg_help (a : Args) : ParseArg a "--help" = ({a with print_help := true}, []) := rfl

theorem parseArg_version (a : Args) :
    ParseArg a "--version" = ({a with print_version := true}, []) := rfl

theorem parseArg_output (a : Args) (v : String) :
    ParseArg a ("--output=" ++ v) = ({a with output_path := some v}, []) := by
  obtain ⟨dv⟩ := v; rfl

theorem parseArg_projection (a : Args) (v : String) :
    ParseArg a ("--projection=" ++ v) = ({a with projection := ParseProjectionType v}, []) := by
  obtain ⟨dv⟩ := v; rfl

theorem parseArg_matchingType (a : Args) (v : String) :
    ParseArg a ("--matching-type=" ++ v) =
      ({a with matching_type := ParseMatchingType v},
       if (ParseMatchingType v).isNone then [matchingTypeWarn v] else []) := by
  obtain ⟨dv⟩ := v; rfl

theorem parseArg_matchThreshold (a : Args) (v : String) :
    ParseArg a ("--match-threshold=" ++ v) = ({a with match_threshold := ParseInt v}, []) := by
  obtain ⟨dv⟩ := v; rfl

theorem parseArg_minShift (a : Args) (v : String) :
    ParseArg a ("--min-shift=" ++ v) = ({a with min_shift := ParseFloat v}, []) := by
  obtain ⟨dv⟩ := v; rfl

theorem parseArg_jpegQuality (a : Args) (v : String) :
    ParseArg a ("--jpeg-quality=" ++ v) = ({a with jpeg_quality := ParseInt v}, []) := by
  obtain ⟨dv⟩ := v; rfl

theorem parseArg_pngCompression (a : Args) (v : String) :
    ParseArg a ("--png-compression=" ++ v) = ({a with png_compression := ParseInt v}, []) := by
  obtain ⟨dv⟩ := v; rfl

theorem parseArg_copyMetadata (a : Args) :
    ParseArg a "--copy-metadata" = ({a with copy_metadata := some true}, []) := rfl

theorem parseArg_noCopyMetadata (a : Args) :
    ParseArg a "--no-copy-metadata" = ({a with copy_metadata := some false}, []) := rfl

theorem parseArg_waveCorrection (a : Args) (v : String) :
    ParseArg a ("--wave-correction=" ++ v) =
      ({a with wave_correction := ParseWaveCorrectionType v}, []) := by
  obtain ⟨dv⟩ := v; rfl

theorem parseArg_maxPanoMpx (a : Args) (v : String) :
    ParseArg a ("--max-pano-mpx=" ++ v) = ({a with max_pano_mpx := ParseInt v}, []) := by
  obtain ⟨dv⟩ := v; rfl

/-! ### Fold lemmas for `ParseArgsRaw` -/

theorem parseArgsRaw_append_single (ts : List String) (t : String) :
    ParseArgsRaw (ts ++ [t]) = parseStep (ParseArgsRaw ts) t := by
  unfold ParseArgsRaw
  rw [List.foldl_append]
  rfl

/-! ### List helper lemmas -/

theorem takeWhile_all_eq {p : Char → Bool} :
    ∀ {l : List Char}, l.all p = true → l.takeWhile p = l := by
  intro l
  induction l with
  | nil => intro; rfl
  | cons x xs ih =>
    intro h
    rw [List.all_cons, Bool.and_eq_true] at h
    simp [List.takeWhile_cons, h.1, ih h.2]

theorem drop_takeWhile_nil_iff {p : Char → Bool} :
    ∀ l : List Char, (l.drop (l.takeWhile p).length = [] ↔ l.all p = true) := by
  intro l
  induction l with
  | nil => simp
  | cons x xs ih =>
    rw [List.takeWhile_cons, List.all_cons, Bool.and_eq_true]
    cases hp : p x with
    | true => simpa [hp] using ih
    | false => simp [hp]

/-! ### Claim C7 -/

/-- C7 counterexample: `"2147483648"` is entirely consumed as a decimal
integer (it is an unbroken digit string), yet the integer parser returns no
value, because `std::from_chars` reports `result_out_of_range` for values
that do not fit in `int`; so "returns a value exactly when the entire
string is consumed" is false as stated. -/
theorem c7_counterexample :
    isFullDecInt "2147483648" = true ∧ ParseInt "2147483648" = none := by
  constructor <;> rfl

/-- C7 (amended): the integer parser returns a value exactly when the
entire string is consumed as a decimal integer AND the value is
representable in the 32-bit `int` type; the float parser returns a value
only when the entire string is consumed as a floating-point literal, and by
construction yields no value instead of an escaping error. -/
theorem c7_parsers_all_or_nothing :
    (∀ s : String, (ParseInt s).isSome = true ↔
      (isFullDecInt s = true ∧ intMin ≤ decStrVal s ∧ decStrVal s ≤ intMax))
    ∧ (∀ (s : String) (v : FloatVal), ParseFloat s = some v →
        ∃ w, strtofParse s.data = some (s.data.length, w)) := by
  constructor
  · intro s
    simp only [ParseInt, isFullDecInt, decStrVal]
    rcases hss : splitSign s.data with ⟨neg, r⟩
    simp only
    by_cases hds : r.takeWhile (·.isDigit) = []
    · rw [if_pos hds]
      refine iff_of_false (by simp) ?_
      rintro ⟨hfull, -⟩
      rw [Bool.and_eq_true] at hfull
      have hself := takeWhile_all_eq hfull.2
      rw [hds] at hself
      rw [← hself] at hfull
      simp at hfull
    · rw [if_neg hds]
      by_cases hrange : ((if neg = true then -1 else 1)
            * (digitsVal 10 decDigitVal (r.takeWhile (·.isDigit)) : Int) < intMin
          ∨ (if neg = true then -1 else 1)
            * (digitsVal 10 decDigitVal (r.takeWhile (·.isDigit)) : Int) > intMax)
      · rw [if_pos (by simpa using hrange)]
        refine iff_of_false (by simp) ?_
        rintro ⟨hfull, hlo, hhi⟩
        rw [Bool.and_eq_true] at hfull
        rw [takeWhile_all_eq hfull.2] at hrange
        omega
      · rw [if_neg (by simpa using hrange)]
        by_cases htail : r.drop (r.takeWhile (·.isDigit)).length = []
        · rw [if_neg (by simp [htail])]
          have hall : r.all (·.isDigit) = true := (drop_takeWhile_nil_iff r).1 htail
          have hr : r.takeWhile (·.isDigit) = r := takeWhile_all_eq hall
          refine iff_of_true rfl ⟨?_, ?_, ?_⟩
          · rw [Bool.and_eq_true]
            refine ⟨?_, hall⟩
            rcases r with _ | ⟨c, cs⟩
            · exact absurd rfl hds
            · rfl
          · rw [hr] at hrange; omega
          · rw [hr] at hrange; omega
        · rw [if_pos (by simpa using htail)]
          refine iff_of_false (by simp) ?_
          rintro ⟨hfull, -⟩
          rw [Bool.and_eq_true] at hfull
          have hself := takeWhile_all_eq hfull.2
          exact htail (by rw [hself, List.drop_length])
  · intro s v h
    unfold ParseFloat at h
    rcases hp : strtofParse s.data with _ | ⟨n, w⟩
    · rw [hp] at h; cases h
    · rw [hp] at h
      dsimp only at h
      by_cases hoor : floatValOutOfRange w = true
      · rw [if_pos hoor] at h; cases h
      · rw [if_neg hoor] at h
        by_cases hn : n = s.data.length
        · exact ⟨w, by rw [hn]⟩
        · rw [if_neg hn] at h; cases h

/-- C7 witness: the amended characterisation evaluated at `"42"` and the
float direction applied at `"1.5"`. -/
theorem c7_parsers_witness :
    ((isFullDecInt "42" = true ∧ intMin ≤ decStrVal "42" ∧ decStrVal "42" ≤ intMax)
      → (ParseInt "42").isSome = true)
    ∧ (∃ w, strtofParse "1.5".data = some ("1.5".data.length, w)) :=
  ⟨(c7_parsers_all_or_nothing.1 "42").2,
   c7_parsers_all_or_nothing.2 "1.5" (.finite (3 / 2)) (by with_unfolding_all rfl)⟩

/-! ### Claim C8 -/

/-- C8: an unparseable `--matching-type=` value warns (naming the invalid
input and the valid literal set) and leaves the field unset; every other
enum and numeric flag is silent when its value is unparseable; and the
overall parse still succeeds with the warning when nothing else fails. -/
theorem c8_matching_type_warning_asymmetry :
    (∀ (a : Args) (v : String), ParseMatchingType v = none →
      ParseArg a ("--matching-type=" ++ v) =
        ({a with matching_type := none}, [matchingTypeWarn v]))
    ∧ (∀ (a : Args) (v : String), ParseProjectionType v = none →
      ParseArg a ("--projection=" ++ v) = ({a with projection := none}, []))
    ∧ (∀ (a : Args) (v : String), ParseWaveCorrectionType v = none →
      ParseArg a ("--wave-correction=" ++ v) = ({a with wave_correction := none}, []))
    ∧ (∀ (a : Args) (v : String), ParseInt v = none →
      ParseArg a ("--match-threshold=" ++ v) = ({a with match_threshold := none}, []))
    ∧ (∀ (a : Args) (v : String), ParseFloat v = none →
      ParseArg a ("--min-shift=" ++ v) = ({a with min_shift := none}, []))
    ∧ (∀ (a : Args) (v : String), ParseInt v = none →
      ParseArg a ("--jpeg-quality=" ++ v) = ({a with jpeg_quality := none}, []))
    ∧ (∀ (a : Args) (v : String), ParseInt v = none →
      ParseArg a ("--png-compression=" ++ v) = ({a with png_compression := none}, []))
    ∧ (∀ (a : Args) (v : String), ParseInt v = none →
      ParseArg a ("--max-pano-mpx=" ++ v) = ({a with max_pano_mpx := none}, []))
    ∧ ParseArgs ctxFlat ["--matching-type=bogus", "img.jpg"] =
        (.ok (some {defaultArgs with input_paths := ["img.jpg"]}), [matchingTypeWarn "bogus"]) := by
  refine ⟨?_, ?_, ?_, ?_, ?_, ?_, ?_, ?_, ?_⟩
  · intro a v h; rw [parseArg_matchingType, h]; rfl
  · intro a v h; rw [parseArg_projection, h]
  · intro a v h; rw [parseArg_waveCorrection, h]
  · intro a v h; rw [parseArg_matchThreshold, h]
  · intro a v h; rw [parseArg_minShift, h]
  · intro a v h; rw [parseArg_jpegQuality, h]
  · intro a v h; rw [parseArg_pngCompression, h]
  · intro a v h; rw [parseArg_maxPanoMpx, h]
  · rfl

/-- C8 witness: the conjuncts applied at the value `"bogus"` (and `"x"` for
the numeric flags), all hypotheses discharged by evaluation. -/
theorem c8_matching_type_warning_witness :
    ParseArg defaultArgs "--matching-type=bogus" =
        ({defaultArgs with matching_type := none}, [matchingTypeWarn "bogus"])
    ∧ ParseArg defaultArgs "--projection=bogus" = ({defaultArgs with projection := none}, [])
    ∧ ParseArg defaultArgs "--wave-correction=bogus" =
        ({defaultArgs with wave_correction := none}, [])
    ∧ ParseArg defaultArgs "--match-threshold=x" =
        ({defaultArgs with match_threshold := none}, [])
    ∧ ParseArg defaultArgs "--min-shift=x" = ({defaultArgs with min_shift := none}, [])
    ∧ ParseArg defaultArgs "--jpeg-quality=x" = ({defaultArgs with jpeg_quality := none}, [])
    ∧ ParseArg defaultArgs "--png-compression=x" =
        ({defaultArgs with png_compression := none}, [])
    ∧ ParseArg defaultArgs "--max-pano-mpx=x" = ({defaultArgs with max_pano_mpx := none}, []) :=
  ⟨c8_matching_type_warning_asymmetry.1 defaultArgs "bogus" rfl,
   c8_matching_type_warning_asymmetry.2.1 defaultArgs "bogus" rfl,
   c8_matching_type_warning_asymmetry.2.2.1 defaultArgs "bogus" rfl,
   c8_matching_type_warning_asymmetry.2.2.2.1 defaultArgs "x" rfl,
   c8_matching_type_warning_asymmetry.2.2.2.2.1 defaultArgs "x" rfl,
   c8_matching_type_warning_asymmetry.2.2.2.2.2.1 defaultArgs "x" rfl,
   c8_matching_type_warning_asymmetry.2.2.2.2.2.2.1 defaultArgs "x" rfl,
   c8_matching_type_warning_asymmetry.2.2.2.2.2.2.2.1 defaultArgs "x" rfl⟩

/-! ### Claim C9 -/

/-- C9: for every value-taking flag the last occurrence alone determines
the field, whatever tokens came before (the dispatcher assigns the parse
result of the last occurrence unconditionally — `--output=`,
`--projection=`, `--matching-type=`, `--match-threshold=`, `--min-shift=`,
`--jpeg-quality=`, `--png-compression=`, `--wave-correction=`,
`--max-pano-mpx=`), so a later unparseable value resets the field to
unset even after an earlier successful set, and the last of
`--copy-metadata` / `--no-copy-metadata` wins. -/
theorem c9_last_occurrence_wins :
    (∀ (ts : List String) (v : String),
      (ParseArgsRaw (ts ++ ["--output=" ++ v])).1.output_path = some v)
    ∧ (∀ (ts : List String) (v : String),
      (ParseArgsRaw (ts ++ ["--projection=" ++ v])).1.projection = ParseProjectionType v)
    ∧ (∀ (ts : List String) (v : String),
      (ParseArgsRaw (ts ++ ["--matching-type=" ++ v])).1.matching_type = ParseMatchingType v)
    ∧ (∀ (ts : List String) (v : String),
      (ParseArgsRaw (ts ++ ["--match-threshold=" ++ v])).1.match_threshold = ParseInt v)
    ∧ (∀ (ts : List String) (v : String),
      (ParseArgsRaw (ts ++ ["--min-shift=" ++ v])).1.min_shift = ParseFloat v)
    ∧ (∀ (ts : List String) (v : String),
      (ParseArgsRaw (ts ++ ["--jpeg-quality=" ++ v])).1.jpeg_quality = ParseInt v)
    ∧ (∀ (ts : List String) (v : String),
      (ParseArgsRaw (ts ++ ["--png-compression=" ++ v])).1.png_compression = ParseInt v)
    ∧ (∀ (ts : List String) (v : String),
      (ParseArgsRaw (ts ++ ["--wave-correction=" ++ v])).1.wave_correction
        = ParseWaveCorrectionType v)
    ∧ (∀ (ts : List String) (v : String),
      (ParseArgsRaw (ts ++ ["--max-pano-mpx=" ++ v])).1.max_pano_mpx = ParseInt v)
    ∧ (∀ ts : List String,
      (ParseArgsRaw (ts ++ ["--copy-metadata"])).1.copy_metadata = some true)
    ∧ (∀ ts : List String,
      (ParseArgsRaw (ts ++ ["--no-copy-metadata"])).1.copy_metadata = some false)
    ∧ (ParseArgsRaw ["--match-threshold=5", "--match-threshold=x"]).1.match_threshold = none := by
  refine ⟨?_, ?_, ?_, ?_, ?_, ?_, ?_, ?_, ?_, ?_, ?_, by rfl⟩
  · intro ts v
    rw [parseArgsRaw_append_single]
    show (ParseArg (ParseArgsRaw ts).1 ("--output=" ++ v)).1.output_path = _
    rw [parseArg_output]
  · intro ts v
    rw [parseArgsRaw_append_single]
    show (ParseArg (ParseArgsRaw ts).1 ("--projection=" ++ v)).1.projection = _
    rw [parseArg_projection]
  · intro ts v
    rw [parseArgsRaw_append_single]
    show (ParseArg (ParseArgsRaw ts).1 ("--matching-type=" ++ v)).1.matching_type = _
    rw [parseArg_matchingType]
  · intro ts v
    rw [parseArgsRaw_append_single]
    show (ParseArg (ParseArgsRaw ts).1 ("--match-threshold=" ++ v)).1.match_threshold = _
    rw [parseArg_matchThreshold]
  · intro ts v
    rw [parseArgsRaw_append_single]
    show (ParseArg (ParseArgsRaw ts).1 ("--min-shift=" ++ v)).1.min_shift = _
    rw [parseArg_minShift]
  · intro ts v
    rw [parseArgsRaw_append_single]
    show (ParseArg (ParseArgsRaw ts).1 ("--jpeg-quality=" ++ v)).1.jpeg_quality = _
    rw [parseArg_jpegQuality]
  · intro ts v
    rw [parseArgsRaw_append_single]
    show (ParseArg (ParseArgsRaw ts).1 ("--png-compression=" ++ v)).1.png_compression = _
    rw [parseArg_pngCompression]
  · intro ts v
    rw [parseArgsRaw_append_single]
    show (ParseArg (ParseArgsRaw ts).1 ("--wave-correction=" ++ v)).1.wave_correction = _
    rw [parseArg_waveCorrection]
  · intro ts v
    rw [parseArgsRaw_append_single]
    show (ParseArg (ParseArgsRaw ts).1 ("--max-pano-mpx=" ++ v)).1.max_pano_mpx = _
    rw [parseArg_maxPanoMpx]
  · intro ts
    rw [parseArgsRaw_append_single]
    show (ParseArg (ParseArgsRaw ts).1 "--copy-metadata").1.copy_metadata = _
    rw [parseArg_copyMetadata]
  · intro ts
    rw [parseArgsRaw_append_single]
    show (ParseArg (ParseArgsRaw ts).1 "--no-copy-metadata").1.copy_metadata = _
    rw [parseArg_noCopyMetadata]

/-! ### Validator lemmas -/

theorem validate_true_conds (sup : String → Bool) (b : Bounds) (a : Args)
    (h : (ValidateArgs sup b a).1 = true) :
    vcond1 a = false ∧ vcond2 sup a = false ∧ vcond3 a = false ∧ vcond4 a = false
    ∧ vcond5 b a = false ∧ vcond6 b a = false ∧ vcond7 b a = false
    ∧ vcond8 b a = false ∧ vcond9 a = false := by
  unfold ValidateArgs at h
  split_ifs at h <;> simp_all

set_option maxHeartbeats 1000000 in
theorem validate_shape (sup : String → Bool) (b : Bounds) (a : Args) :
    ValidateArgs sup b a = (true, [])
    ∨ ∃ d, ValidateArgs sup b a = (false, [⟨.error, d⟩]) := by
  unfold ValidateArgs
  split_ifs <;> first
    | exact .inl rfl
    | exact .inr ⟨_, rfl⟩

/-! ### Claim C2 -/

/-- C2: the validator is the first-failure scan of the nine-rule table in
its listed order, logging exactly the failing rule's diagnostic (or passing
with no log); and with the first three (output-path) rules not applicable,
`match_threshold = 0` fails under the falsy-sentinel rule with its
diagnostic, for every configured bound. -/
theorem c2_validator_first_failing_rule :
    (∀ (sup : String → Bool) (b : Bounds) (a : Args),
      ValidateArgs sup b a =
        match (validationRules sup b a).find? (fun r => r.1) with
        | some r => (false, [r.2])
        | none => (true, []))
    ∧ (∀ (sup : String → Bool) (b : Bounds) (a : Args),
      a.output_path = none → a.match_threshold = some 0 →
        ValidateArgs sup b a = (false, [vdiag4])) := by
  constructor
  · intro sup b a
    unfold ValidateArgs validationRules
    split_ifs <;> simp_all [List.find?]
  · intro sup b a ho hm
    unfold ValidateArgs
    rw [if_neg, if_neg, if_neg, if_pos]
    · simp [vcond4, hm]
    · simp [vcond3, ho]
    · simp [vcond2, ho]
    · simp [vcond1, ho]

/-- C2 witness: the zero-sentinel conjunct applied to a record carrying
only `match_threshold = 0`, under bounds whose minimum is 10. -/
theorem c2_validator_witness :
    ValidateArgs supJpgPng boundsStd {defaultArgs with match_threshold := some 0}
      = (false, [vdiag4]) :=
  c2_validator_first_failing_rule.2 supJpgPng boundsStd
    {defaultArgs with match_threshold := some 0} rfl rfl

/-! ### Path-order and insertion-sort lemmas -/

theorem charsLt_asymm : ∀ {a b : List Char}, charsLt a b = true → charsLt b a = false := by
  intro a
  induction a with
  | nil =>
    intro b h
    cases b with
    | nil => cases h
    | cons y ys => rfl
  | cons x xs ih =>
    intro b h
    cases b with
    | nil => cases h
    | cons y ys =>
      unfold charsLt at h ⊢
      by_cases h1 : x.toNat < y.toNat
      · rw [if_neg (by omega), if_pos h1]
      · rw [if_neg h1] at h
        by_cases h2 : y.toNat < x.toNat
        · rw [if_pos h2] at h; cases h
        · rw [if_neg h2] at h
          rw [if_neg h1, if_neg h2]
          exact ih h

theorem pathCompLe_total : ∀ a b, pathCompLe a b = true ∨ pathCompLe b a = true := by
  intro a
  induction a with
  | nil => intro b; left; cases b <;> rfl
  | cons x xs ih =>
    intro b
    cases b with
    | nil => right; rfl
    | cons y ys =>
      unfold pathCompLe
      by_cases h1 : charsLt x y = true
      · left; rw [if_pos h1]
      · by_cases h2 : charsLt y x = true
        · right; rw [if_pos h2]
        · rw [if_neg h1, if_neg h2, if_neg h2, if_neg h1]
          exact ih ys

theorem pathLe_total (a b : String) : pathLe a b = true ∨ pathLe b a = true :=
  pathCompLe_total _ _


theorem chainSorted_cons_tail {le : String → String → Bool} {x : String} {l : List String}
    (h : chainSorted le (x :: l) = true) : chainSorted le l = true := by
  cases l with
  | nil => rfl
  | cons y ys =>
    unfold chainSorted at h
    rw [Bool.and_eq_true] at h
    exact h.2

theorem chainSorted_cons_head {le : String → String → Bool} {x y : String} {l : List String}
    (h : chainSorted le (x :: y :: l) = true) : le x y = true := by
  unfold chainSorted at h
  rw [Bool.and_eq_true] at h
  exact h.1

theorem chain_insert_aux :
    ∀ (ys : List String) (y x : String), pathLe y x = true →
      chainSorted pathLe (y :: ys) = true →
      chainSorted pathLe (y :: insertPath x ys) = true := by
  intro ys
  induction ys with
  | nil =>
    intro y x hyx h
    unfold insertPath chainSorted
    simp [hyx, chainSorted]
  | cons z zs ih =>
    intro y x hyx h
    have hyz := chainSorted_cons_head h
    have hz := chainSorted_cons_tail h
    unfold insertPath
    by_cases hxz : pathLe x z = true
    · rw [if_pos hxz]
      show (pathLe y x && (pathLe x z && chainSorted pathLe (z :: zs))) = true
      rw [hyx, hxz, hz]; rfl
    · rw [if_neg hxz]
      have hzx : pathLe z x = true := (pathLe_total x z).resolve_left hxz
      have hrec := ih z x hzx hz
      show (pathLe y z && chainSorted pathLe (z :: insertPath x zs)) = true
      rw [hyz, hrec]; rfl

theorem chainSorted_insert (x : String) (l : List String)
    (h : chainSorted pathLe l = true) :
    chainSorted pathLe (insertPath x l) = true := by
  cases l with
  | nil => rfl
  | cons y ys =>
    unfold insertPath
    by_cases hxy : pathLe x y = true
    · rw [if_pos hxy]
      show (pathLe x y && chainSorted pathLe (y :: ys)) = true
      rw [hxy, h]; rfl
    · rw [if_neg hxy]
      exact chain_insert_aux ys y x ((pathLe_total x y).resolve_left hxy) h

theorem sortPaths_sorted (l : List String) : chainSorted pathLe (sortPaths l) = true := by
  induction l with
  | nil => rfl
  | cons x xs ih => exact chainSorted_insert x (sortPaths xs) ih

theorem beq_false_of_ne_symm {x p : String} (h : ¬p = x) : (x == p) = false := by
  rw [beq_eq_false_iff_ne]
  exact fun hh => h hh.symm

theorem count_insertPath (x p : String) (l : List String) :
    (insertPath x l).count p = l.count p + (if p = x then 1 else 0) := by
  induction l with
  | nil => by_cases h : p = x <;> simp [insertPath, h]
  | cons y ys ih =>
    unfold insertPath
    by_cases hxy : pathLe x y = true
    · rw [if_pos hxy]
      rw [List.count_cons, List.count_cons]
      by_cases h : p = x
      · subst h; simp
      · simp [h, beq_false_of_ne_symm h]
    · rw [if_neg hxy]
      rw [List.count_cons, ih, List.count_cons]
      omega
  
theorem count_sortPaths (p : String) (l : List String) :
    (sortPaths l).count p = l.count p := by
  induction l with
  | nil => rfl
  | cons x xs ih =>
    show (insertPath x (sortPaths xs)).count p = _
    rw [count_insertPath, ih, List.count_cons]
    by_cases h : p = x
    · subst h; simp
    · simp [h, beq_false_of_ne_symm h]

theorem mem_insertPath {p x : String} {l : List String} :
    p ∈ insertPath x l ↔ p = x ∨ p ∈ l := by
  induction l with
  | nil => simp [insertPath]
  | cons y ys ih =>
    unfold insertPath
    by_cases hxy : pathLe x y = true
    · rw [if_pos hxy]; simp
    · rw [if_neg hxy]
      simp only [List.mem_cons, ih]
      tauto

theorem mem_sortPaths {p : String} {l : List String} :
    p ∈ sortPaths l ↔ p ∈ l := by
  induction l with
  | nil => simp [sortPaths]
  | cons x xs ih =>
    show p ∈ insertPath x (sortPaths xs) ↔ _
    rw [mem_insertPath]
    simp [ih]

theorem sortPaths_of_sorted : ∀ {l : List String}, chainSorted pathLe l = true → sortPaths l = l := by
  intro l
  induction l with
  | nil => intro; rfl
  | cons x xs ih =>
    intro h
    show insertPath x (sortPaths xs) = x :: xs
    rw [ih (chainSorted_cons_tail h)]
    cases xs with
    | nil => rfl
    | cons y ys =>
      unfold insertPath
      rw [if_pos (chainSorted_cons_head h)]

theorem sortPaths_idem (l : List String) : sortPaths (sortPaths l) = sortPaths l :=
  sortPaths_of_sorted (sortPaths_sorted l)


/-! ### Pipeline inversion lemmas -/

theorem parseArgs_def (ctx : Ctx) (ts : List String) :
    ParseArgs ctx ts = PipelineAfterRaw ctx (ParseArgsRaw ts).1 (ParseArgsRaw ts).2 := rfl

theorem pipeline_ok_some {ctx : Ctx} {a : Args} {logs logs2 : List LogEntry} {args : Args}
    (h : PipelineAfterRaw ctx a logs = (.ok (some args), logs2)) :
    ∃ expanded,
      (ExpandDirectories ctx.fs a.input_paths).1 = .ok expanded
      ∧ args = {a with input_paths := sortPaths (KeepSupported ctx.isSupported expanded)}
      ∧ (ValidateArgs ctx.isSupported ctx.bounds args).1 = true := by
  unfold PipelineAfterRaw at h
  dsimp only at h
  split at h
  · simp at h
  · next expanded heq =>
    split at h
    · simp at h
    · split at h
      · next hv =>
        rw [Prod.mk.injEq] at h
        obtain ⟨h1, -⟩ := h
        injection h1 with h1
        injection h1 with h1
        exact ⟨expanded, heq, h1.symm, h1 ▸ hv⟩
      · simp at h

theorem pipeline_error {ctx : Ctx} {a : Args} {logs : List LogEntry} {e : Unit}
    (h : (ExpandDirectories ctx.fs a.input_paths).1 = .error e) :
    PipelineAfterRaw ctx a logs
      = (.error e, logs ++ (ExpandDirectories ctx.fs a.input_paths).2) := by
  unfold PipelineAfterRaw
  dsimp only
  rw [h]

theorem pipeline_no_supported {ctx : Ctx} {a : Args} {logs : List LogEntry}
    {expanded : List String}
    (h : (ExpandDirectories ctx.fs a.input_paths).1 = .ok expanded)
    (hne : expanded ≠ [])
    (hsup : KeepSupported ctx.isSupported expanded = []) :
    PipelineAfterRaw ctx a logs =
      (.ok none, logs ++ (ExpandDirectories ctx.fs a.input_paths).2 ++ [noSupportedLog]) := by
  unfold PipelineAfterRaw
  dsimp only
  rw [h]
  dsimp only
  rw [if_pos ⟨hsup, hne⟩]

theorem pipeline_empty_expansion {ctx : Ctx} {a : Args} {logs : List LogEntry}
    (h : (ExpandDirectories ctx.fs a.input_paths).1 = .ok []) :
    ((PipelineAfterRaw ctx a logs).1 = .ok none ↔
      (ValidateArgs ctx.isSupported ctx.bounds {a with input_paths := []}).1 = false) := by
  unfold PipelineAfterRaw
  dsimp only
  rw [h]
  dsimp only
  rw [if_neg (by simp [KeepSupported])]
  by_cases hv : (ValidateArgs ctx.isSupported ctx.bounds {a with input_paths := []}).1 = true
  · rw [if_pos (show (ValidateArgs ctx.isSupported ctx.bounds
      {a with input_paths := sortPaths (KeepSupported ctx.isSupported [])}).1 = true from hv)]
    exact iff_of_false (by simp) (by simp [hv])
  · rw [if_neg (show ¬(ValidateArgs ctx.isSupported ctx.bounds
      {a with input_paths := sortPaths (KeepSupported ctx.isSupported [])}).1 = true from hv)]
    exact iff_of_true rfl (Bool.eq_false_iff.mpr hv)

/-! ### Log-level accounting -/

theorem errCount_append (l1 l2 : List LogEntry) :
    errCount (l1 ++ l2) = errCount l1 + errCount l2 := by
  simp [errCount, List.filter_append]

theorem parseArg_logs_shape (a : Args) (t : String) :
    (ParseArg a t).2 = [] ∨ ∃ v, (ParseArg a t).2 = [matchingTypeWarn v] := by
  unfold ParseArg
  by_cases h1 : strEqB t kGuiFlag = true
  · rw [if_pos h1]; left; rfl
  · rw [if_neg h1]
    by_cases h2 : strEqB t kHelpFlag = true
    · rw [if_pos h2]; left; rfl
    · rw [if_neg h2]
      by_cases h3 : strEqB t kVersionFlag = true
      · rw [if_pos h3]; left; rfl
      · rw [if_neg h3]
        by_cases h4 : strStarts t kOutputFlag = true
        · rw [if_pos h4]; left; rfl
        · rw [if_neg h4]
          by_cases h5 : strStarts t kProjectionFlag = true
          · rw [if_pos h5]; left; rfl
          · rw [if_neg h5]
            by_cases h6 : strStarts t kMatchingTypeFlag = true
            · rw [if_pos h6]
              dsimp only
              by_cases hmt :
                  (ParseMatchingType (strDropChars t kMatchingTypeFlag.length)).isNone = true
              · rw [if_pos hmt]
                exact .inr ⟨strDropChars t kMatchingTypeFlag.length, rfl⟩
              · rw [if_neg hmt]; left; rfl
            · rw [if_neg h6]
              by_cases h7 : strStarts t kMatchThresholdFlag = true
              · rw [if_pos h7]; left; rfl
              · rw [if_neg h7]
                by_cases h8 : strStarts t kMinShiftFlag = true
                · rw [if_pos h8]; left; rfl
                · rw [if_neg h8]
                  by_cases h9 : strStarts t kJpegQualityFlag = true
                  · rw [if_pos h9]; left; rfl
                  · rw [if_neg h9]
                    by_cases h10 : strStarts t kPngCompressionFlag = true
                    · rw [if_pos h10]; left; rfl
                    · rw [if_neg h10]
                      by_cases h11 : strEqB t kCopyMetadataFlag = true
                      · rw [if_pos h11]; left; rfl
                      · rw [if_neg h11]
                        by_cases h12 : strEqB t kNoCopyMetadataFlag = true
                        · rw [if_pos h12]; left; rfl
                        · rw [if_neg h12]
                          by_cases h13 : strStarts t kWaveCorrectionFlag = true
                          · rw [if_pos h13]; left; rfl
                          · rw [if_neg h13]
                            by_cases h14 : strStarts t kMaxPanoMpxFlag = true
                            · rw [if_pos h14]; left; rfl
                            · rw [if_neg h14]; left; rfl

theorem errCount_parseArg (a : Args) (t : String) : errCount (ParseArg a t).2 = 0 := by
  rcases parseArg_logs_shape a t with h | ⟨v, h⟩ <;> rw [h] <;> rfl

theorem errCount_foldl (ts : List String) :
    ∀ acc : Args × List LogEntry,
      errCount (List.foldl parseStep acc ts).2 = errCount acc.2 := by
  induction ts with
  | nil => intro acc; rfl
  | cons t ts ih =>
    intro acc
    show errCount (List.foldl parseStep (parseStep acc t) ts).2 = _
    rw [ih]
    show errCount (acc.2 ++ (ParseArg acc.1 t).2) = _
    rw [errCount_append, errCount_parseArg]
    omega

theorem errCount_parseArgsRaw (ts : List String) : errCount (ParseArgsRaw ts).2 = 0 :=
  errCount_foldl ts (defaultArgs, [])

theorem errCount_cons_info (p : String) (l : List LogEntry) :
    errCount (expandLog p :: l) = errCount l := by
  simp [errCount, expandLog, List.filter_cons]

theorem errCount_expand (fs : FileSystem) :
    ∀ ps : List String, errCount (ExpandDirectories fs ps).2 = 0 := by
  intro ps
  induction ps with
  | nil => rfl
  | cons p rest ih =>
    unfold ExpandDirectories
    by_cases hd : fs.isDirectory p = true
    · rw [if_pos hd]
      rcases hde : fs.dirEntries p with e | es
      · rfl
      · dsimp only
        rcases htl : (ExpandDirectories fs rest).1 with e | r <;>
          · dsimp only
            rw [errCount_cons_info]
            exact ih
    · rw [if_neg hd]
      dsimp only
      rcases htl : (ExpandDirectories fs rest).1 with e | r <;>
        · dsimp only
          exact ih

theorem errCount_validate (sup : String → Bool) (b : Bounds) (a : Args) :
    errCount (ValidateArgs sup b a).2 = if (ValidateArgs sup b a).1 = true then 0 else 1 := by
  rcases validate_shape sup b a with hsh | ⟨d, hsh⟩ <;> rw [hsh] <;> rfl

theorem pipeline_errCount (ctx : Ctx) (a : Args) (logs : List LogEntry)
    (h0 : errCount logs = 0) :
    (∀ args logs2, PipelineAfterRaw ctx a logs = (.ok (some args), logs2) → errCount logs2 = 0)
    ∧ (∀ logs2, PipelineAfterRaw ctx a logs = (.ok none, logs2) → errCount logs2 = 1) := by
  unfold PipelineAfterRaw
  dsimp only
  split
  · constructor
    · intro args logs2 h3; simp at h3
    · intro logs2 h3; simp at h3
  · next expanded heq =>
    split
    · constructor
      · intro args logs2 h; simp at h
      · intro logs2 h
        rw [Prod.mk.injEq] at h
        obtain ⟨-, h2⟩ := h
        subst h2
        rw [errCount_append, errCount_append, h0, errCount_expand]
        rfl
    · constructor
      · intro args logs2 h
        split at h
        · next hv =>
          rw [Prod.mk.injEq] at h
          obtain ⟨-, h2⟩ := h
          subst h2
          rw [errCount_append, errCount_append, h0, errCount_expand, errCount_validate]
          rw [if_pos hv]
        · simp at h
      · intro logs2 h
        split at h
        · simp at h
        · next hv =>
          rw [Prod.mk.injEq] at h
          obtain ⟨-, h2⟩ := h
          subst h2
          rw [errCount_append, errCount_append, h0, errCount_expand, errCount_validate]
          rw [if_neg hv]

/-! ### Claims C1, C3, C4, C5, C6, C10 -/

/-- C3: when the expanded positional sequence is non-empty but the
supported-extension filter leaves nothing, `ParseArgs` fails with the
"No supported images provided!" diagnostic; when the expanded sequence is
empty the filter check cannot fail and the outcome is decided by the
validator alone, so `--help` with no file arguments succeeds. -/
theorem c3_filter_failure_policy :
    (∀ (ctx : Ctx) (ts : List String) (expanded : List String),
      (ExpandDirectories ctx.fs (ParseArgsRaw ts).1.input_paths).1 = .ok expanded →
      expanded ≠ [] →
      KeepSupported ctx.isSupported expanded = [] →
      ParseArgs ctx ts =
        (.ok none, (ParseArgsRaw ts).2
          ++ (ExpandDirectories ctx.fs (ParseArgsRaw ts).1.input_paths).2
          ++ [noSupportedLog]))
    ∧ (∀ (ctx : Ctx) (ts : List String),
      (ExpandDirectories ctx.fs (ParseArgsRaw ts).1.input_paths).1 = .ok [] →
      ((ParseArgs ctx ts).1 = .ok none ↔
        (ValidateArgs ctx.isSupported ctx.bounds
          {(ParseArgsRaw ts).1 with input_paths := []}).1 = false))
    ∧ (∀ ctx : Ctx,
      ParseArgs ctx ["--help"] = (.ok (some {defaultArgs with print_help := true}), [])) := by
  refine ⟨?_, ?_, ?_⟩
  · intro ctx ts expanded h hne hsup
    rw [parseArgs_def]
    exact pipeline_no_supported h hne hsup
  · intro ctx ts h
    rw [parseArgs_def]
    exact pipeline_empty_expansion h
  · intro ctx
    rfl

/-- C3 witness: the three conjuncts applied at concrete invocations
(`file.txt` unsupported; the empty token list; bare `--help`). -/
theorem c3_filter_failure_witness :
    ParseArgs ctxFlat ["file.txt"] = (.ok none, [noSupportedLog])
    ∧ ((ParseArgs ctxFlat []).1 = .ok none ↔
        (ValidateArgs ctxFlat.isSupported ctxFlat.bounds
          {(ParseArgsRaw []).1 with input_paths := []}).1 = false)
    ∧ ParseArgs ctxFlat ["--help"] = (.ok (some {defaultArgs with print_help := true}), []) :=
  ⟨c3_filter_failure_policy.1 ctxFlat ["file.txt"] ["file.txt"] rfl (by simp) rfl,
   c3_filter_failure_policy.2.1 ctxFlat [] rfl,
   c3_filter_failure_policy.2.2 ctxFlat⟩

/-- C4 counterexample: with a filesystem whose enumeration of directory
`d` fails, `ParseArgs` propagates the error (`Except.error`, the model of
an uncaught exception), and does not convert it into the empty-optional
parse failure the claim describes: the try/catch in args.cc line 234 wraps
only `ParseArgsRaw`, while `ExpandDirectories` runs outside it. -/
theorem c4_fs_error_counterexample :
    ParseArgs ctxErr ["d"] = (.error (), [expandLog "d"])
    ∧ (ParseArgs ctxErr ["d"]).1 ≠ .ok none := by
  constructor
  · rfl
  · intro h
    rw [show (ParseArgs ctxErr ["d"]).1 = .error () from rfl] at h
    cases h

/-- C4 (amended): a filesystem error during directory enumeration
propagates out of `ParseArgs` as an exception rather than being converted
into an explicit failure; apart from that path, every failure returns the
explicit empty optional with exactly one error-level diagnostic logged,
and every success logs none. -/
theorem c4_failure_discipline :
    (∀ (ctx : Ctx) (ts : List String) (e : Unit),
      (ExpandDirectories ctx.fs (ParseArgsRaw ts).1.input_paths).1 = .error e →
      (ParseArgs ctx ts).1 = .error e)
    ∧ (∀ (ctx : Ctx) (ts : List String) (args : Args) (logs2 : List LogEntry),
      ParseArgs ctx ts = (.ok (some args), logs2) → errCount logs2 = 0)
    ∧ (∀ (ctx : Ctx) (ts : List String) (logs2 : List LogEntry),
      ParseArgs ctx ts = (.ok none, logs2) → errCount logs2 = 1) := by
  refine ⟨?_, ?_, ?_⟩
  · intro ctx ts e h
    rw [parseArgs_def, pipeline_error h]
  · intro ctx ts args logs2 h
    rw [parseArgs_def] at h
    exact (pipeline_errCount ctx (ParseArgsRaw ts).1 (ParseArgsRaw ts).2
      (errCount_parseArgsRaw ts)).1 args logs2 h
  · intro ctx ts logs2 h
    rw [parseArgs_def] at h
    exact (pipeline_errCount ctx (ParseArgsRaw ts).1 (ParseArgsRaw ts).2
      (errCount_parseArgsRaw ts)).2 logs2 h

/-- C4 witness: the three conjuncts applied at concrete invocations. -/
theorem c4_failure_discipline_witness :
    (ParseArgs ctxErr ["d"]).1 = .error ()
    ∧ errCount [noSupportedLog] = 1
    ∧ errCount ([] : List LogEntry) = 0 :=
  ⟨c4_failure_discipline.1 ctxErr ["d"] () rfl,
   c4_failure_discipline.2.2 ctxFlat ["file.txt"] [noSupportedLog] rfl,
   c4_failure_discipline.2.1 ctxFlat ["--help"] {defaultArgs with print_help := true} [] rfl⟩

/-- C1: if `ParseArgs` returns a configuration record, then output_path
present implies input_paths non-empty and run_gui false; every present
numeric field passed its bound check (match_threshold and the integer
fields within their inclusive ranges, min_shift not below/above its bounds
under the code's float comparison); and every element of input_paths
passes the supported-extension filter. -/
theorem c1_success_invariants :
    ∀ (ctx : Ctx) (ts : List String) (args : Args) (logs2 : List LogEntry),
      ParseArgs ctx ts = (.ok (some args), logs2) →
      (args.output_path.isSome = true → args.input_paths ≠ [] ∧ args.run_gui = false)
      ∧ (∀ v, args.match_threshold = some v →
          ctx.bounds.kMinMatchThreshold ≤ v ∧ v ≤ ctx.bounds.kMaxMatchThreshold)
      ∧ (∀ v, args.min_shift = some v →
          fvLtQ v ctx.bounds.kMinShiftInPano = false
          ∧ fvGtQ v ctx.bounds.kMaxShiftInPano = false)
      ∧ (∀ v, args.jpeg_quality = some v → 0 ≤ v ∧ v ≤ ctx.bounds.kMaxJpegQuality)
      ∧ (∀ v, args.png_compression = some v → 0 ≤ v ∧ v ≤ ctx.bounds.kMaxPngCompression)
      ∧ (∀ v, args.max_pano_mpx = some v → 1 ≤ v ∧ v ≤ 5000)
      ∧ (∀ p ∈ args.input_paths, ctx.isSupported p = true) := by
  intro ctx ts args logs2 h
  rw [parseArgs_def] at h
  obtain ⟨expanded, heq, hargs, hval⟩ := pipeline_ok_some h
  obtain ⟨hc1, hc2, hc3, hc4, hc5, hc6, hc7, hc8, hc9⟩ :=
    validate_true_conds ctx.isSupported ctx.bounds args hval
  refine ⟨?_, ?_, ?_, ?_, ?_, ?_, ?_⟩
  · intro ho
    constructor
    · intro hnil
      unfold vcond1 at hc1
      rw [ho, hnil, Bool.true_and] at hc1
      cases hc1
    · unfold vcond3 at hc3
      rw [ho, Bool.true_and] at hc3
      exact hc3
  · intro v hv
    unfold vcond5 at hc5
    rw [hv] at hc5
    simp only [Option.any_some, Bool.or_eq_false_iff, decide_eq_false_iff_not] at hc5
    constructor <;> omega
  · intro v hv
    unfold vcond6 at hc6
    rw [hv] at hc6
    simp only [Option.any_some, Bool.or_eq_false_iff] at hc6
    exact hc6
  · intro v hv
    unfold vcond7 at hc7
    rw [hv] at hc7
    simp only [Option.any_some, Bool.or_eq_false_iff, decide_eq_false_iff_not] at hc7
    constructor <;> omega
  · intro v hv
    unfold vcond8 at hc8
    rw [hv] at hc8
    simp only [Option.any_some, Bool.or_eq_false_iff, decide_eq_false_iff_not] at hc8
    constructor <;> omega
  · intro v hv
    unfold vcond9 at hc9
    rw [hv] at hc9
    simp only [Option.any_some, Bool.or_eq_false_iff, decide_eq_false_iff_not] at hc9
    constructor <;> omega
  · intro p hp
    rw [hargs] at hp
    dsimp only at hp
    rw [mem_sortPaths] at hp
    exact (List.mem_filter.mp hp).2


/-- C1 witness: the invariants instantiated on the successful invocation
`img.jpg --output=out.jpg --jpeg-quality=90` under `ctxFlat`. -/
theorem c1_success_invariants_witness :
    argsOutJpeg.input_paths ≠ []
    ∧ argsOutJpeg.run_gui = false
    ∧ (0 ≤ (90 : Int) ∧ (90 : Int) ≤ ctxFlat.bounds.kMaxJpegQuality)
    ∧ supJpgPng "img.jpg" = true := by
  have h := c1_success_invariants ctxFlat ["img.jpg", "--output=out.jpg", "--jpeg-quality=90"]
    argsOutJpeg [] rfl
  exact ⟨(h.1 rfl).1, (h.1 rfl).2, h.2.2.2.1 90 rfl, h.2.2.2.2.2.2 "img.jpg" (by simp [argsOutJpeg])⟩


/-- C6 counterexample: the successful parse of `photos/a.jpg
photos-x.jpg` returns input_paths in `std::filesystem::path` order, which
is not ascending raw-string order: `photos-x.jpg` < `photos/a.jpg` as
strings (`-` 0x2D < `/` 0x2F) but path comparison is component-wise, so
the result keeps `photos/a.jpg` first. -/
theorem c6_string_order_counterexample :
    ParseArgs ctxFlat ["photos/a.jpg", "photos-x.jpg"] = (.ok (some argsTwoPhotos), [])
    ∧ chainSorted strLeB argsTwoPhotos.input_paths = false := ⟨rfl, rfl⟩

/-- C6 (amended): every successful result's input_paths is sorted
ascending under the `std::filesystem::path` component-wise ordering
(which agrees with raw string order for separator-free paths), the sort is
idempotent on the result, and sorting preserves multiplicities, so
duplicate paths are retained. -/
theorem c6_sort_properties :
    (∀ (ctx : Ctx) (ts : List String) (args : Args) (logs2 : List LogEntry),
      ParseArgs ctx ts = (.ok (some args), logs2) →
      chainSorted pathLe args.input_paths = true
      ∧ sortPaths args.input_paths = args.input_paths)
    ∧ (∀ (l : List String) (p : String), (sortPaths l).count p = l.count p) := by
  constructor
  · intro ctx ts args logs2 h
    rw [parseArgs_def] at h
    obtain ⟨expanded, -, hargs, -⟩ := pipeline_ok_some h
    rw [hargs]
    dsimp only
    exact ⟨sortPaths_sorted _, sortPaths_idem _⟩
  · intro l p
    exact count_sortPaths p l


/-- C6 witness: the sort properties instantiated on the duplicate
invocation `img1.jpg img1.jpg`, both copies retained. -/
theorem c6_sort_properties_witness :
    chainSorted pathLe argsDup.input_paths = true
    ∧ sortPaths argsDup.input_paths = argsDup.input_paths
    ∧ (sortPaths ["img1.jpg", "img1.jpg"]).count "img1.jpg"
        = (["img1.jpg", "img1.jpg"] : List String).count "img1.jpg" :=
  ⟨(c6_sort_properties.1 ctxFlat ["img1.jpg", "img1.jpg"] argsDup [] rfl).1,
   (c6_sort_properties.1 ctxFlat ["img1.jpg", "img1.jpg"] argsDup [] rfl).2,
   c6_sort_properties.2 ["img1.jpg", "img1.jpg"] "img1.jpg"⟩

theorem parseArg_set_help (a : Args) (t : String) :
    ParseArg {a with print_help := true} t
      = ({(ParseArg a t).1 with print_help := true}, (ParseArg a t).2) := by
  unfold ParseArg
  dsimp only
  by_cases h1 : strEqB t kGuiFlag = true
  · simp only [if_pos h1]
  · simp only [if_neg h1]
    by_cases h2 : strEqB t kHelpFlag = true
    · simp only [if_pos h2]
    · simp only [if_neg h2]
      by_cases h3 : strEqB t kVersionFlag = true
      · simp only [if_pos h3]
      · simp only [if_neg h3]
        by_cases h4 : strStarts t kOutputFlag = true
        · simp only [if_pos h4]
        · simp only [if_neg h4]
          by_cases h5 : strStarts t kProjectionFlag = true
          · simp only [if_pos h5]
          · simp only [if_neg h5]
            by_cases h6 : strStarts t kMatchingTypeFlag = true
            · simp only [if_pos h6]
            · simp only [if_neg h6]
              by_cases h7 : strStarts t kMatchThresholdFlag = true
              · simp only [if_pos h7]
              · simp only [if_neg h7]
                by_cases h8 : strStarts t kMinShiftFlag = true
                · simp only [if_pos h8]
                · simp only [if_neg h8]
                  by_cases h9 : strStarts t kJpegQualityFlag = true
                  · simp only [if_pos h9]
                  · simp only [if_neg h9]
                    by_cases h10 : strStarts t kPngCompressionFlag = true
                    · simp only [if_pos h10]
                    · simp only [if_neg h10]
                      by_cases h11 : strEqB t kCopyMetadataFlag = true
                      · simp only [if_pos h11]
                      · simp only [if_neg h11]
                        by_cases h12 : strEqB t kNoCopyMetadataFlag = true
                        · simp only [if_pos h12]
                        · simp only [if_neg h12]
                          by_cases h13 : strStarts t kWaveCorrectionFlag = true
                          · simp only [if_pos h13]
                          · simp only [if_neg h13]
                            by_cases h14 : strStarts t kMaxPanoMpxFlag = true
                            · simp only [if_pos h14]
                            · simp only [if_neg h14]

theorem parseArg_set_version (a : Args) (t : String) :
    ParseArg {a with print_version := true} t
      = ({(ParseArg a t).1 with print_version := true}, (ParseArg a t).2) := by
  unfold ParseArg
  dsimp only
  by_cases h1 : strEqB t kGuiFlag = true
  · simp only [if_pos h1]
  · simp only [if_neg h1]
    by_cases h2 : strEqB t kHelpFlag = true
    · simp only [if_pos h2]
    · simp only [if_neg h2]
      by_cases h3 : strEqB t kVersionFlag = true
      · simp only [if_pos h3]
      · simp only [if_neg h3]
        by_cases h4 : strStarts t kOutputFlag = true
        · simp only [if_pos h4]
        · simp only [if_neg h4]
          by_cases h5 : strStarts t kProjectionFlag = true
          · simp only [if_pos h5]
          · simp only [if_neg h5]
            by_cases h6 : strStarts t kMatchingTypeFlag = true
            · simp only [if_pos h6]
            · simp only [if_neg h6]
              by_cases h7 : strStarts t kMatchThresholdFlag = true
              · simp only [if_pos h7]
              · simp only [if_neg h7]
                by_cases h8 : strStarts t kMinShiftFlag = true
                · simp only [if_pos h8]
                · simp only [if_neg h8]
                  by_cases h9 : strStarts t kJpegQualityFlag = true
                  · simp only [if_pos h9]
                  · simp only [if_neg h9]
                    by_cases h10 : strStarts t kPngCompressionFlag = true
                    · simp only [if_pos h10]
                    · simp only [if_neg h10]
                      by_cases h11 : strEqB t kCopyMetadataFlag = true
                      · simp only [if_pos h11]
                      · simp only [if_neg h11]
                        by_cases h12 : strEqB t kNoCopyMetadataFlag = true
                        · simp only [if_pos h12]
                        · simp only [if_neg h12]
                          by_cases h13 : strStarts t kWaveCorrectionFlag = true
                          · simp only [if_pos h13]
                          · simp only [if_neg h13]
                            by_cases h14 : strStarts t kMaxPanoMpxFlag = true
                            · simp only [if_pos h14]
                            · simp only [if_neg h14]

theorem foldl_parseStep_help (ts : List String) :
    ∀ (a : Args) (l : List LogEntry),
      List.foldl parseStep ({a with print_help := true}, l) ts
        = ({(List.foldl parseStep (a, l) ts).1 with print_help := true},
           (List.foldl parseStep (a, l) ts).2) := by
  induction ts with
  | nil => intro a l; rfl
  | cons t ts ih =>
    intro a l
    show List.foldl parseStep (parseStep ({a with print_help := true}, l) t) ts = _
    have hstep : parseStep ({a with print_help := true}, l) t
        = ({(ParseArg a t).1 with print_help := true}, l ++ (ParseArg a t).2) := by
      show ((ParseArg {a with print_help := true} t).1,
        l ++ (ParseArg {a with print_help := true} t).2) = _
      rw [parseArg_set_help]
    rw [hstep, ih]
    rfl

theorem foldl_parseStep_version (ts : List String) :
    ∀ (a : Args) (l : List LogEntry),
      List.foldl parseStep ({a with print_version := true}, l) ts
        = ({(List.foldl parseStep (a, l) ts).1 with print_version := true},
           (List.foldl parseStep (a, l) ts).2) := by
  induction ts with
  | nil => intro a l; rfl
  | cons t ts ih =>
    intro a l
    show List.foldl parseStep (parseStep ({a with print_version := true}, l) t) ts = _
    have hstep : parseStep ({a with print_version := true}, l) t
        = ({(ParseArg a t).1 with print_version := true}, l ++ (ParseArg a t).2) := by
      show ((ParseArg {a with print_version := true} t).1,
        l ++ (ParseArg {a with print_version := true} t).2) = _
      rw [parseArg_set_version]
    rw [hstep, ih]
    rfl

theorem parseArgsRaw_help (ts : List String) :
    ParseArgsRaw ("--help" :: ts)
      = ({(ParseArgsRaw ts).1 with print_help := true}, (ParseArgsRaw ts).2) := by
  show List.foldl parseStep (parseStep (defaultArgs, []) "--help") ts = _
  exact foldl_parseStep_help ts defaultArgs []

theorem parseArgsRaw_version (ts : List String) :
    ParseArgsRaw ("--version" :: ts)
      = ({(ParseArgsRaw ts).1 with print_version := true}, (ParseArgsRaw ts).2) := by
  show List.foldl parseStep (parseStep (defaultArgs, []) "--version") ts = _
  exact foldl_parseStep_version ts defaultArgs []

theorem pipeline_set_help (ctx : Ctx) (a : Args) (logs : List LogEntry) :
    PipelineAfterRaw ctx {a with print_help := true} logs
      = (Except.map (Option.map fun x => {x with print_help := true})
          (PipelineAfterRaw ctx a logs).1,
         (PipelineAfterRaw ctx a logs).2) := by
  unfold PipelineAfterRaw
  dsimp only
  rcases hE : (ExpandDirectories ctx.fs a.input_paths).1 with e | expanded
  · rfl
  · dsimp only
    by_cases hc : KeepSupported ctx.isSupported expanded = [] ∧ expanded ≠ []
    · simp only [if_pos hc]
      rfl
    · simp only [if_neg hc]
      have hv2 : ValidateArgs ctx.isSupported ctx.bounds {a with print_help := true, input_paths := sortPaths (KeepSupported ctx.isSupported expanded)} = ValidateArgs ctx.isSupported ctx.bounds {a with input_paths := sortPaths (KeepSupported ctx.isSupported expanded)} := rfl
      rw [hv2]
      by_cases hvr : (ValidateArgs ctx.isSupported ctx.bounds {a with input_paths := sortPaths (KeepSupported ctx.isSupported expanded)}).1 = true
      · simp only [if_pos hvr]
        rfl
      · simp only [if_neg hvr]
        rfl

theorem pipeline_set_version (ctx : Ctx) (a : Args) (logs : List LogEntry) :
    PipelineAfterRaw ctx {a with print_version := true} logs
      = (Except.map (Option.map fun x => {x with print_version := true})
          (PipelineAfterRaw ctx a logs).1,
         (PipelineAfterRaw ctx a logs).2) := by
  unfold PipelineAfterRaw
  dsimp only
  rcases hE : (ExpandDirectories ctx.fs a.input_paths).1 with e | expanded
  · rfl
  · dsimp only
    by_cases hc : KeepSupported ctx.isSupported expanded = [] ∧ expanded ≠ []
    · simp only [if_pos hc]
      rfl
    · simp only [if_neg hc]
      have hv2 : ValidateArgs ctx.isSupported ctx.bounds {a with print_version := true, input_paths := sortPaths (KeepSupported ctx.isSupported expanded)} = ValidateArgs ctx.isSupported ctx.bounds {a with input_paths := sortPaths (KeepSupported ctx.isSupported expanded)} := rfl
      rw [hv2]
      by_cases hvr : (ValidateArgs ctx.isSupported ctx.bounds {a with input_paths := sortPaths (KeepSupported ctx.isSupported expanded)}).1 = true
      · simp only [if_pos hvr]
        rfl
      · simp only [if_neg hvr]
        rfl

/-- C10: `--help` / `--version` do not short-circuit: prepending either
flag leaves the whole pipeline result unchanged except for the
corresponding boolean field, so an invocation whose remainder fails (zero
supported files or a validator violation) still returns failure. -/
theorem c10_help_version_no_short_circuit :
    ∀ (ctx : Ctx) (ts : List String),
      ParseArgs ctx ("--help" :: ts)
        = (Except.map (Option.map fun a => {a with print_help := true}) (ParseArgs ctx ts).1,
           (ParseArgs ctx ts).2)
      ∧ ParseArgs ctx ("--version" :: ts)
        = (Except.map (Option.map fun a => {a with print_version := true}) (ParseArgs ctx ts).1,
           (ParseArgs ctx ts).2)
      ∧ ((ParseArgs ctx ts).1 = .ok none → (ParseArgs ctx ("--help" :: ts)).1 = .ok none) := by
  intro ctx ts
  have h1 : ParseArgs ctx ("--help" :: ts)
      = (Except.map (Option.map fun a => {a with print_help := true}) (ParseArgs ctx ts).1,
         (ParseArgs ctx ts).2) := by
    rw [parseArgs_def ctx ("--help" :: ts), parseArgs_def ctx ts, parseArgsRaw_help]
    exact pipeline_set_help ctx (ParseArgsRaw ts).1 (ParseArgsRaw ts).2
  have h2 : ParseArgs ctx ("--version" :: ts)
      = (Except.map (Option.map fun a => {a with print_version := true}) (ParseArgs ctx ts).1,
         (ParseArgs ctx ts).2) := by
    rw [parseArgs_def ctx ("--version" :: ts), parseArgs_def ctx ts, parseArgsRaw_version]
    exact pipeline_set_version ctx (ParseArgsRaw ts).1 (ParseArgsRaw ts).2
  refine ⟨h1, h2, ?_⟩
  intro hfail
  have := congrArg Prod.fst h1
  rw [this, hfail]
  rfl

/-- C10 witness: `--help file.txt` is still rejected by the filter. -/
theorem c10_help_version_witness :
    (ParseArgs ctxFlat ["--help", "file.txt"]).1 = .ok none :=
  (c10_help_version_no_short_circuit ctxFlat ["file.txt"]).2.2 rfl

/-- C5 counterexample: directory `photos` has the subdirectory
`photos/raw` among its immediate children, yet the expansion output
already omits it — the `is_regular_file` check drops it during expansion
(args.cc line 221), not "later by the extension filter" as claimed; the
non-image regular file `photos/notes.txt` does survive expansion. -/
theorem c5_expansion_counterexample :
    fsPhotos.dirEntries "photos"
      = .ok [⟨"photos/b.png", true⟩, ⟨"photos/a.jpg", true⟩,
             ⟨"photos/notes.txt", true⟩, ⟨"photos/raw", false⟩]
    ∧ fsPhotos.isDirectory "photos/raw" = true
    ∧ (ExpandDirectories fsPhotos ["photos"]).1
        = .ok ["photos/b.png", "photos/a.jpg", "photos/notes.txt"]
    ∧ "photos/raw" ∉ ["photos/b.png", "photos/a.jpg", "photos/notes.txt"] := by
  refine ⟨rfl, rfl, rfl, ?_⟩
  decide

/-- C5 (amended): expansion is non-recursive and replaces each directory
entry in place by its immediate regular-file children (nested
subdirectories are dropped during expansion by the regular-file check);
non-directory entries pass through unchanged; one info line is logged per
expanded directory. -/
theorem c5_expansion_one_level :
    ∀ (fs : FileSystem) (paths : List String),
      (∀ p ∈ paths, fs.isDirectory p = true → ∃ es, fs.dirEntries p = .ok es) →
      ExpandDirectories fs paths
        = (.ok (oneLevelExpand fs paths),
           (paths.filter (fun p => fs.isDirectory p)).map expandLog) := by
  intro fs paths
  induction paths with
  | nil => intro _; rfl
  | cons p rest ih =>
    intro h
    have hrest := ih (fun q hq => h q (List.mem_cons_of_mem p hq))
    unfold ExpandDirectories
    by_cases hd : fs.isDirectory p = true
    · rw [if_pos hd]
      obtain ⟨es, hes⟩ := h p (List.mem_cons_self p rest) hd
      rw [hes]
      dsimp only
      rw [hrest]
      dsimp only
      unfold oneLevelExpand
      rw [List.map_cons, List.flatten_cons, if_pos hd, hes]
      rw [List.filter_cons_of_pos hd, List.map_cons]
    · rw [if_neg hd]
      dsimp only
      rw [hrest]
      dsimp only
      unfold oneLevelExpand
      rw [List.map_cons, List.flatten_cons, if_neg hd]
      rw [List.filter_cons_of_neg (by simpa using hd)]
      rfl

/-- C5 witness: the one-level characterisation applied to `fsPhotos`. -/
theorem c5_expansion_witness :
    ExpandDirectories fsPhotos ["photos"]
      = (.ok (oneLevelExpand fsPhotos ["photos"]),
         ((["photos"] : List String).filter (fun p => fsPhotos.isDirectory p)).map expandLog) :=
  c5_expansion_one_level fsPhotos ["photos"] (by
    intro p hp hd
    rcases List.mem_singleton.mp hp
    exact ⟨_, rfl⟩)


end Xpano
